import Mathlib

/-!
Verification of the Splinter multi-tenant key-value store's RPC dispatch core.

The definitions below embed the RPC dispatch path of the server
(`src/db/src/master.rs`: `Master::get`, `Master::put`, `Master::invoke`,
and the `Service::dispatch` implementation), the extension context
(`src/db/src/context.rs`: `Context::resp`), and the client-side pushback
record constants (`src/splinter/src/bin/client/auth.rs`).

Machine integers (`u16`, `u32`, `u64`) are modelled as `Nat`: none of the
verified paths perform arithmetic that can overflow (the fields are only
read, compared, and echoed).  Byte strings are `List Nat`.  Packets from
the e2d2 I/O layer are external to the repository; the specification
declares them out of scope ("the core receives pre-parsed request packets
and emits pre-allocated response packets"), so request/response packets
are modelled as structured records and header pushes always succeed.

Several supporting modules of the repository are not part of the provided
sources (`wireformat.rs`, `tenant.rs`, `table.rs`, `alloc.rs`,
`container.rs`, `splinter/src/manager.rs`); where a definition stands in
for one of those, its doc comment says `Modelled from the spec:` and the
definition follows the specification's words.
-/

namespace Splinter

/-- RPC status codes. The variant names are exactly those used by
`master.rs` (`RpcStatus::StatusOk`, etc.); the set matches spec section 6. -/
inductive RpcStatus where
  | StatusOk
  | StatusMalformedRequest
  | StatusTenantDoesNotExist
  | StatusTableDoesNotExist
  | StatusObjectDoesNotExist
  | StatusInvalidExtension
  | StatusInternalError
  | StatusPushback
  deriving DecidableEq, Repr

/-- RPC opcodes dispatched by `Service::dispatch` in `master.rs`. The
wildcard arm of the Rust `match` (any opcode other than the three named
ones) is modelled by the `unknownOp` constructor carrying the raw code. -/
inductive OpCode where
  | SandstormGetRpc
  | SandstormPutRpc
  | SandstormInvokeRpc
  | unknownOp (code : Nat)
  deriving DecidableEq, Repr

/-- Modelled from the spec: a record held by the allocator (`alloc.rs` is
not under the provided sources). Spec section 4.C: `object(tenant, table,
key, value)` allocates a record containing both key and value, and
`resolve` views the stored key and value bytes. -/
structure HeapObject where
  key : List Nat
  value : List Nat
  deriving DecidableEq, Repr

/-- Association-list lookup; the model of the concurrent hash maps used
for tenants, tables, and table entries. -/
def alookup {κ α : Type} [DecidableEq κ] : List (κ × α) → κ → Option α
  | [], _ => none
  | (k1, v1) :: rest, k => if k = k1 then some v1 else alookup rest k

/-- Association-list insert-or-overwrite; the model of hash-map `insert`. -/
def aupdate {κ α : Type} [DecidableEq κ] : List (κ × α) → κ → α → List (κ × α)
  | [], k, v => [(k, v)]
  | (k1, v1) :: rest, k, v =>
      if k = k1 then (k, v) :: rest else (k1, v1) :: aupdate rest k v

/-- Modelled from the spec: a table (`table.rs` is not under the provided
sources). Spec section 4.B: a concurrent map from key bytes to object
references; `put` publishes atomically (insert-or-overwrite). -/
structure Table where
  entries : List (List Nat × HeapObject)
  deriving DecidableEq, Repr

/-- Modelled from the spec: a tenant (`tenant.rs` is not under the
provided sources). Spec section 3: a tenant owns a map from table id to
table. -/
structure Tenant where
  id : Nat
  tables : List (Nat × Table)
  deriving DecidableEq, Repr

/-- The Master service state: the tenant map (the 32-way bucketing of
`master.rs` is a sharding detail that preserves map semantics, so the map
is modelled directly) and the extension manager's state. The extension
manager (`ext.rs` is not under the provided sources) is modelled from the
spec, section 4.D: per tenant, the set of extension names loaded for it. -/
structure Master where
  tenants : List (Nat × Tenant)
  extensions : List (Nat × List (List Nat))
  deriving DecidableEq, Repr

/-- Lookup of a table inside a tenant (`Tenant::get_table`, modelled from
the spec since `tenant.rs` is not under the provided sources). -/
def Tenant.get_table (t : Tenant) (table_id : Nat) : Option Table :=
  alookup t.tables table_id

/-- The method `Master::get_tenant` (master.rs): map lookup returning the tenant if
present. -/
def Master.get_tenant (m : Master) (tenant_id : Nat) : Option Tenant :=
  alookup m.tenants tenant_id

/-- Modelled from the spec: `ExtensionManager::get(tenant, name)` returns
the loaded extension if the name is loaded/authorized for the tenant
(spec section 4.D); the model returns whether it exists. -/
def extensionsGet (m : Master) (tenant_id : Nat) (name : List Nat) : Bool :=
  match alookup m.extensions tenant_id with
  | some names => name ∈ names
  | none => false

/-- A request packet after header parsing. `master.rs` reinterprets the
same raw bytes as a `GetRequest`, `PutRequest`, or `InvokeRequest` header;
the model carries the union of the header fields each handler reads
(`tenant` and `stamp` from the common header; `table_id`/`key_length` for
get and put; `name_length`/`args_length` for invoke) plus the payload. -/
structure ReqPacket where
  tenant : Nat
  stamp : Nat
  table_id : Nat
  key_length : Nat
  name_length : Nat
  args_length : Nat
  payload : List Nat
  deriving DecidableEq, Repr

/-- A get response: the `GetResponse` header (stamp, status,
value_length) plus the response payload. -/
structure GetResponse where
  stamp : Nat
  status : RpcStatus
  value_length : Nat
  payload : List Nat
  deriving DecidableEq, Repr

/-- Modelled from the spec: `GetResponse::new(stamp)` (`wireformat.rs` is
not under the provided sources) initializes the response header with the
request stamp echoed back (spec section 3: "Responses carry the
request-stamp echoed back"), status `Ok` (code 0), zero value length, and
an empty payload. -/
def GetResponse.new (stamp : Nat) : GetResponse :=
  { stamp := stamp, status := .StatusOk, value_length := 0, payload := [] }

/-- A put response: the `PutResponse` header (stamp, status); the payload
is always empty (spec section 6). -/
structure PutResponse where
  stamp : Nat
  status : RpcStatus
  deriving DecidableEq, Repr

/-- Modelled from the spec: `PutResponse::new(stamp)` echoes the request
stamp and initializes the status to `Ok` (`wireformat.rs` is not under
the provided sources). -/
def PutResponse.new (stamp : Nat) : PutResponse :=
  { stamp := stamp, status := .StatusOk }

/-- An invoke response: the `InvokeResponse` header (stamp, status) plus
the response payload. -/
structure InvokeResponse where
  stamp : Nat
  status : RpcStatus
  payload : List Nat
  deriving DecidableEq, Repr

/-- Modelled from the spec: `InvokeResponse::new(stamp)` echoes the
request stamp and initializes the status to `Ok` with an empty payload
(`wireformat.rs` is not under the provided sources). -/
def InvokeResponse.new (stamp : Nat) : InvokeResponse :=
  { stamp := stamp, status := .StatusOk, payload := [] }

/-- Result of `Master::get`. `errResp` is the `Err((req, res))` return
taken at dispatch time (no task is created); `taskResp` is the
`Ok(Native task)` return, carrying the response that the task's single
generator slice produces when run (native tasks complete in one slice,
spec section 4.G). -/
inductive GetResult where
  | errResp (r : GetResponse)
  | taskResp (r : GetResponse)
  deriving DecidableEq, Repr

/-- The handler `Master::get` (master.rs lines 251-364) combined with the single run
of the native task it creates.  Field reads, the payload-length check,
and the tenant/table/key/status cascade follow the source line by line.
The allocator's `resolve` (spec section 4.C, `alloc.rs` not under the
provided sources) is modelled as always yielding the stored key and value
bytes; the e2d2 payload append is external and modelled as succeeding
(pre-allocated response packet, spec sections 1 and 3). -/
def masterGet (m : Master) (req : ReqPacket) : GetResult :=
  let res := GetResponse.new req.stamp
  if req.payload.length < req.key_length then
    .errResp { res with status := .StatusMalformedRequest }
  else
    match m.get_tenant req.tenant with
    | none => .taskResp { res with status := .StatusTenantDoesNotExist }
    | some tenant =>
      match tenant.get_table req.table_id with
      | none => .taskResp { res with status := .StatusTableDoesNotExist }
      | some table =>
        match alookup table.entries (req.payload.take req.key_length) with
        | none => .taskResp { res with status := .StatusObjectDoesNotExist }
        | some obj =>
          .taskResp { res with
                      status := .StatusOk
                      value_length := obj.value.length
                      payload := obj.value }

/-- Result of `Master::put`. `errResp` is the `Err((req, res))` return at
dispatch time (no task created); `taskResp` carries the Master state
after the native task's single slice ran, together with the response it
produced. -/
inductive PutResult where
  | errResp (r : PutResponse)
  | taskResp (after : Master) (r : PutResponse)
  deriving DecidableEq, Repr

/-- The Master state after a successful put of request `req` against
tenant `ten` and table `table`: the table entry for the request's key is
inserted or overwritten with a freshly allocated object holding the key
and value halves of the payload (the `table.put(key, obj)` call of
master.rs line 455, with the spec-modelled allocator and table). -/
def putUpdatedMaster (m : Master) (req : ReqPacket) (ten : Tenant)
    (table : Table) : Master :=
  let key := req.payload.take req.key_length
  let val := req.payload.drop req.key_length
  let newTable : Table := { entries := aupdate table.entries key { key := key, value := val } }
  let newTenant : Tenant := { ten with tables := aupdate ten.tables req.table_id newTable }
  { m with tenants := aupdate m.tenants req.tenant newTenant }

/-- The handler `Master::put` (master.rs lines 382-477) combined with the single run
of the native task it creates.  The payload-length check, the
tenant/table lookup, the `split_at(key_length)` of the payload into key
and value, the `val.len() > 0` guard, and the status cascade follow the
source.  The allocator's `object` call (spec section 4.C) is modelled as
always succeeding, producing a record holding the key and value bytes;
`table.put` is the insert-or-overwrite of spec section 4.B. -/
def masterPut (m : Master) (req : ReqPacket) : PutResult :=
  let res := PutResponse.new req.stamp
  if req.payload.length < req.key_length then
    .errResp { res with status := .StatusMalformedRequest }
  else
    match m.get_tenant req.tenant with
    | none => .taskResp m { res with status := .StatusTenantDoesNotExist }
    | some tenant =>
      match tenant.get_table req.table_id with
      | none => .taskResp m { res with status := .StatusTableDoesNotExist }
      | some table =>
        let val := req.payload.drop req.key_length
        if val.length > 0 then
          .taskResp (putUpdatedMaster m req tenant table)
                    { res with status := .StatusOk }
        else
          .taskResp m { res with status := .StatusMalformedRequest }

/-- Whether a byte is a UTF-8 continuation byte (`0x80..=0xBF`). -/
def utf8Cont (b : Nat) : Bool :=
  0x80 ≤ b && b ≤ 0xBF

/-- UTF-8 validity of a byte string, as checked by Rust's
`String::from_utf8` in `Master::invoke` (master.rs line 538): ASCII
bytes stand alone; `0xC2..=0xDF` take one continuation byte;
three-byte sequences start `0xE0` (second byte `0xA0..=0xBF`),
`0xE1..=0xEC` or `0xEE..=0xEF` (any continuations), or `0xED` (second
byte `0x80..=0x9F`, excluding surrogates); four-byte sequences start
`0xF0` (second byte `0x90..=0xBF`), `0xF1..=0xF3`, or `0xF4` (second
byte `0x80..=0x8F`); everything else is invalid. -/
def utf8Valid : List Nat → Bool
  | [] => true
  | b :: rest =>
    if b ≤ 0x7F then utf8Valid rest
    else if 0xC2 ≤ b ∧ b ≤ 0xDF then
      match rest with
      | c1 :: r => utf8Cont c1 && utf8Valid r
      | [] => false
    else if b = 0xE0 then
      match rest with
      | c1 :: c2 :: r => (0xA0 ≤ c1 && c1 ≤ 0xBF) && utf8Cont c2 && utf8Valid r
      | _ => false
    else if (0xE1 ≤ b ∧ b ≤ 0xEC) ∨ (0xEE ≤ b ∧ b ≤ 0xEF) then
      match rest with
      | c1 :: c2 :: r => utf8Cont c1 && utf8Cont c2 && utf8Valid r
      | _ => false
    else if b = 0xED then
      match rest with
      | c1 :: c2 :: r => (0x80 ≤ c1 && c1 ≤ 0x9F) && utf8Cont c2 && utf8Valid r
      | _ => false
    else if b = 0xF0 then
      match rest with
      | c1 :: c2 :: c3 :: r =>
          (0x90 ≤ c1 && c1 ≤ 0xBF) && utf8Cont c2 && utf8Cont c3 && utf8Valid r
      | _ => false
    else if 0xF1 ≤ b ∧ b ≤ 0xF3 then
      match rest with
      | c1 :: c2 :: c3 :: r =>
          utf8Cont c1 && utf8Cont c2 && utf8Cont c3 && utf8Valid r
      | _ => false
    else if b = 0xF4 then
      match rest with
      | c1 :: c2 :: c3 :: r =>
          (0x80 ≤ c1 && c1 ≤ 0x8F) && utf8Cont c2 && utf8Cont c3 && utf8Valid r
      | _ => false
    else false

/-- The data captured by the `Context` that `Master::invoke` hands to a
new `Container` task (context.rs `Context::new`): the request payload,
the argument offset and length inside it, the pre-populated response, the
issuing tenant, and the extension's name. -/
structure CtxInfo where
  reqPayload : List Nat
  args_offset : Nat
  args_length : Nat
  resp : InvokeResponse
  tenantId : Nat
  extName : List Nat
  deriving DecidableEq, Repr

/-- Result of `Master::invoke`. `panicked` is the
`String::from_utf8(..).expect(..)` panic on a non-UTF-8 extension name
(master.rs line 538); `errResp` is the `Err((req, res))` return (no task
created); `task` is the `Ok(Container task)` return carrying the context
the container wraps. -/
inductive InvokeResult where
  | panicked
  | errResp (r : InvokeResponse)
  | task (c : CtxInfo)
  deriving DecidableEq, Repr

/-- The handler `Master::invoke` (master.rs lines 493-568).  The order of operations
follows the source: the payload-length check against
`name_length + args_length` comes first; then the extension name is read
and decoded (`String::from_utf8(..).expect(..)` — a panic on invalid
UTF-8); then the tenant lookup (status `TenantDoesNotExist` if absent);
then the extension lookup (status `InvalidExtension` if absent); if both
succeed a `Container` task is created around a fresh `Context`. -/
def masterInvoke (m : Master) (req : ReqPacket) : InvokeResult :=
  let res := InvokeResponse.new req.stamp
  if req.payload.length < req.name_length + req.args_length then
    .errResp { res with status := .StatusMalformedRequest }
  else
    let name := req.payload.take req.name_length
    if utf8Valid name then
      match m.get_tenant req.tenant with
      | none => .errResp { res with status := .StatusTenantDoesNotExist }
      | some _tenant =>
        if extensionsGet m req.tenant name then
          .task { reqPayload := req.payload, args_offset := req.name_length,
                  args_length := req.args_length, resp := res,
                  tenantId := req.tenant, extName := name }
        else
          .errResp { res with status := .StatusInvalidExtension }
    else
      .panicked

/-- Result of `Service::dispatch` for Master (master.rs lines 574-605).
The three task constructors are the `Ok(task)` returns; the `errX`
constructors are `Err((req, res))` returns with an RPC response header
pushed; `errRaw` is the wildcard arm `_ => return Err((req, res))`, which
hands the packets back untouched — no response header is pushed and no
status is written; `panicked` propagates the invoke-path panic. -/
inductive DispatchOut where
  | getTask (r : GetResponse)
  | putTask (after : Master) (r : PutResponse)
  | containerTask (c : CtxInfo)
  | errGet (r : GetResponse)
  | errPut (r : PutResponse)
  | errInvoke (r : InvokeResponse)
  | errRaw
  | panicked
  deriving DecidableEq, Repr

/-- The `Service::dispatch` impl for Master (master.rs lines 574-605): match on the
opcode and call the relevant handler; any other opcode returns
`Err((req, res))` with the packets unmodified. -/
def Master.dispatch (m : Master) (op : OpCode) (req : ReqPacket) : DispatchOut :=
  match op with
  | .SandstormGetRpc =>
    match masterGet m req with
    | .errResp r => .errGet r
    | .taskResp r => .getTask r
  | .SandstormPutRpc =>
    match masterPut m req with
    | .errResp r => .errPut r
    | .taskResp m2 r => .putTask m2 r
  | .SandstormInvokeRpc =>
    match masterInvoke m req with
    | .panicked => .panicked
    | .errResp r => .errInvoke r
    | .task c => .containerTask c
  | .unknownOp _ => .errRaw

/-- The status field carried on the response a dispatch outcome holds:
`none` when no RPC response header exists (the wildcard arm returns the
packets with headers only up to UDP, and a panic produces no response). -/
def dispatchRespStatus : DispatchOut → Option RpcStatus
  | .getTask r => some r.status
  | .putTask _ r => some r.status
  | .containerTask c => some c.resp.status
  | .errGet r => some r.status
  | .errPut r => some r.status
  | .errInvoke r => some r.status
  | .errRaw => none
  | .panicked => none

/-- The stamp field carried on the response a dispatch outcome holds. -/
def dispatchStamp : DispatchOut → Option Nat
  | .getTask r => some r.stamp
  | .putTask _ r => some r.stamp
  | .containerTask c => some c.resp.stamp
  | .errGet r => some r.stamp
  | .errPut r => some r.stamp
  | .errInvoke r => some r.stamp
  | .errRaw => none
  | .panicked => none

/-- Whether a dispatch outcome created a schedulable task. -/
def taskCreated : DispatchOut → Bool
  | .getTask _ => true
  | .putTask _ _ => true
  | .containerTask _ => true
  | _ => false

/-- The Master state after a put RPC: the state the native task leaves
behind (unchanged when the dispatch-time check failed, since no task ran). -/
def applyPut (m : Master) (req : ReqPacket) : Master :=
  match masterPut m req with
  | .errResp _ => m
  | .taskResp m2 _ => m2

/-- The Master state after a sequence of put RPCs, applied in order. -/
def applyPuts (m : Master) : List ReqPacket → Master
  | [] => m
  | r :: rest => applyPuts (applyPut m r) rest

/-- The status on the response a put RPC produced. -/
def putRespStatus : PutResult → RpcStatus
  | .errResp r => r.status
  | .taskResp _ r => r.status

/-- The value written by the most recent put in `ops` (applied starting
from state `m`) that addressed tenant `t`, table `tb`, and key `key`, and
whose response status was `Ok`; `none` when no such put exists. A put
addresses `key` when the first `key_length` bytes of its payload equal
`key`; the value it writes is the rest of its payload. -/
def lastOkPutValue (m : Master) (t tb : Nat) (key : List Nat) :
    List ReqPacket → Option (List Nat)
  | [] => none
  | r :: rest =>
    match lastOkPutValue (applyPut m r) t tb key rest with
    | some v => some v
    | none =>
      if r.tenant = t ∧ r.table_id = tb ∧ r.payload.take r.key_length = key
         ∧ putRespStatus (masterPut m r) = .StatusOk
      then some (r.payload.drop r.key_length)
      else none

/-- The value bytes stored in the database under tenant `t`, table `tb`,
key `key`, resolved through the allocator. -/
def lookupVal (m : Master) (t tb : Nat) (key : List Nat) : Option (List Nat) :=
  ((m.get_tenant t).bind fun ten =>
    (ten.get_table tb).bind fun table =>
      (alookup table.entries key).map fun obj => obj.value)

/-- The five task states of the scheduler (spec sections 3 and 4.F; the
`TaskState` enum of `task.rs`, which is not under the provided sources,
is modelled from the spec). -/
inductive TaskState where
  | INITIALIZED
  | RUNNABLE
  | YIELDED
  | WAITING
  | COMPLETED
  deriving DecidableEq, Repr

/-- The response buffer the extension `Context` of context.rs mutates:
the remaining payload capacity of the pre-allocated response packet and
the payload written so far. -/
structure CtxResponse where
  cap : Nat
  payload : List Nat
  deriving DecidableEq, Repr

/-- Modelled from the spec: the e2d2 packet append
`add_to_payload_tail`, which is external to the repository, fails exactly
when the response payload is full (spec section 4.E: `resp(bytes)` "may
fail if full"). -/
def addToPayloadTail (r : CtxResponse) (data : List Nat) : Option CtxResponse :=
  if r.payload.length + data.length ≤ r.cap then
    some { r with payload := r.payload ++ data }
  else
    none

/-- Outcome of running a piece of extension code: either a value, or a
Rust panic unwinding out of it. -/
inductive PanicOr (α : Type) where
  | panicked
  | ok (a : α)
  deriving DecidableEq, Repr

/-- The method `Context::resp` from context.rs (the `DB` impl, lines 185-190): the
data is appended with `add_to_payload_tail(data.len(), data).unwrap()`.
The `unwrap` means an append failure is a panic that unwinds out of the
extension; no error value is returned to it (the trait method returns
unit). -/
def contextResp (r : CtxResponse) (data : List Nat) : PanicOr CtxResponse :=
  match addToPayloadTail r data with
  | some r2 => .ok r2
  | none => .panicked

/-- Modelled from the spec: the slice boundary of a `Container` task
(`container.rs` is not under the provided sources). Spec section 7: "An
extension panic inside a slice is caught at the slice boundary: the
container task transitions to COMPLETED with `InternalError`"; "The core
never aborts a worker". The result is the task state, the response
status, and whether the worker was aborted. -/
def containerSliceBoundary (step : PanicOr CtxResponse) :
    TaskState × RpcStatus × Bool :=
  match step with
  | .panicked => (.COMPLETED, .StatusInternalError, false)
  | .ok _ => (.COMPLETED, .StatusOk, false)

/-- Record size of a pushback continuation record, from
`src/splinter/src/bin/client/auth.rs` line 63 (comment there: "Type: 1,
KeySize: 30, ValueSize: 40"). -/
def RECORD_SIZE : Nat := 71

/-- Key length used when the auth client parses pushback records: the
literal `30` passed to `update_rwset` in auth.rs line 448. -/
def PUSHBACK_KEY_LEN : Nat := 30

/-- Value length of a pushback record in the default deployment (spec
section 4.K: record width is `1 + KEY_LEN + VAL_LEN`, "default deployment
uses 30 + 40 = 71"). -/
def PUSHBACK_VAL_LEN : Nat := 40

/-- One entry of a task's read-set or write-set: the key bytes and the
value bytes observed or written. -/
structure RWRecord where
  key : List Nat
  value : List Nat
  deriving DecidableEq, Repr

/-- Modelled from the spec: the wire form of one pushback record (spec
sections 4.K and 6): a type tag byte (`1` read-set, `2` write-set)
followed by the key bytes and the value bytes. -/
def serializeRecord (tag : Nat) (rec : RWRecord) : List Nat :=
  tag :: (rec.key ++ rec.value)

/-- Modelled from the spec: the pushback response payload built by
`Container::pushback` (`container.rs` is not under the provided sources):
the concatenation of the read-set records (tag 1) followed by the
write-set records (tag 2), with no separator (spec section 4.K). -/
def serializePushback (rset wset : List RWRecord) : List Nat :=
  (rset.map (serializeRecord 1)).flatten ++ (wset.map (serializeRecord 2)).flatten

/-- Modelled from the spec: the client-side parse performed by
`TaskManager::update_rwset(records, RECORD_SIZE, 30)`
(`splinter/src/manager.rs` is not under the provided sources): the
payload is cut into consecutive records of `recSize` bytes; in each, the
first byte is the type tag, the next `keyLen` bytes the key, and the
remainder of the record the value. -/
def parseRecords (recSize keyLen : Nat) (payload : List Nat) :
    List (Nat × RWRecord) :=
  if payload = [] ∨ recSize = 0 then []
  else
    let chunk := payload.take recSize
    (chunk.headD 0,
      { key := (chunk.drop 1).take keyLen, value := (chunk.drop 1).drop keyLen })
      :: parseRecords recSize keyLen (payload.drop recSize)
  termination_by payload.length
  decreasing_by
    simp only [List.length_drop]
    rcases Nat.eq_zero_or_pos recSize with h0 | h0
    · simp_all
    · rcases payload with _ | ⟨a, l⟩
      · simp_all
      · simp [List.length]
        omega

/-- A concrete stored object: key `[1]`, value `[0x5B, 0x64]`. -/
def sampleObj : HeapObject := { key := [1], value := [91, 100] }

/-- A concrete table holding `sampleObj` under key `[1]`. -/
def sampleTable : Table := { entries := [([1], sampleObj)] }

/-- A concrete tenant (id 1) owning `sampleTable` as table 1. -/
def sampleTenant : Tenant := { id := 1, tables := [(1, sampleTable)] }

/-- A concrete Master state: tenant 1 with table 1, and the extension
name `"ab"` (bytes `[0x61, 0x62]`) loaded for tenant 1. -/
def sampleMaster : Master :=
  { tenants := [(1, sampleTenant)], extensions := [(1, [[97, 98]])] }

/-- A concrete get request for tenant 1, table 1, key `[1]`. -/
def sampleGetReq : ReqPacket :=
  { tenant := 1, stamp := 99, table_id := 1, key_length := 1,
    name_length := 0, args_length := 0, payload := [1] }

/-- A concrete put request for tenant 1, table 1, key `[5]`, value `[9]`. -/
def samplePutReq : ReqPacket :=
  { tenant := 1, stamp := 7, table_id := 1, key_length := 1,
    name_length := 0, args_length := 0, payload := [5, 9] }

/-- A concrete invoke request whose one-byte extension name `[0xFF]` is
not valid UTF-8. -/
def sampleBadNameReq : ReqPacket :=
  { tenant := 1, stamp := 3, table_id := 0, key_length := 0,
    name_length := 1, args_length := 0, payload := [255] }

/-- A concrete invoke request naming the loaded extension `"ab"`. -/
def sampleInvokeReq : ReqPacket :=
  { tenant := 1, stamp := 5, table_id := 0, key_length := 0,
    name_length := 2, args_length := 0, payload := [97, 98] }

/-- A concrete request with an empty payload but nonzero declared
lengths: malformed for all three RPC kinds. -/
def sampleShortReq : ReqPacket :=
  { tenant := 1, stamp := 11, table_id := 1, key_length := 4,
    name_length := 4, args_length := 2, payload := [] }

/-- The stamp on the response a get RPC produced (both the dispatch-time
error return and the task's response). -/
def getResultStamp : GetResult → Nat
  | .errResp r => r.stamp
  | .taskResp r => r.stamp

/-- The stamp on the response a put RPC produced. -/
def putResultStamp : PutResult → Nat
  | .errResp r => r.stamp
  | .taskResp _ r => r.stamp

/-- The stamp on the response an invoke RPC produced (`none` when the
handler panicked: no response escapes). -/
def invokeResultStamp : InvokeResult → Option Nat
  | .panicked => none
  | .errResp r => some r.stamp
  | .task c => some c.resp.stamp

theorem alookup_aupdate {κ α : Type} [DecidableEq κ] (l : List (κ × α))
    (k k2 : κ) (v : α) :
    alookup (aupdate l k v) k2 = if k2 = k then some v else alookup l k2 := by
  induction l with
  | nil => simp [aupdate, alookup]
  | cons hd tl ih =>
    obtain ⟨k1, v1⟩ := hd
    by_cases h : k = k1
    · subst h
      simp only [aupdate, if_pos rfl, alookup]
      by_cases h2 : k2 = k <;> simp [h2]
    · simp only [aupdate, if_neg h, alookup, ih]
      by_cases h2 : k2 = k1
      · subst h2
        simp [Ne.symm h]
      · simp [h2]

theorem lookupVal_applyPut (m : Master) (r : ReqPacket) (t tb : Nat)
    (key : List Nat) :
    lookupVal (applyPut m r) t tb key =
      if r.tenant = t ∧ r.table_id = tb ∧ r.payload.take r.key_length = key
         ∧ putRespStatus (masterPut m r) = .StatusOk
      then some (r.payload.drop r.key_length)
      else lookupVal m t tb key := by
  by_cases hlen : r.payload.length < r.key_length
  · have hmp : masterPut m r =
        .errResp { stamp := r.stamp, status := .StatusMalformedRequest } := by
      simp [masterPut, PutResponse.new, hlen]
    rw [applyPut, hmp, if_neg]
    rintro ⟨-, -, -, hst⟩
    simp [putRespStatus] at hst
  · rcases hten : m.get_tenant r.tenant with _ | ten
    · have hmp : masterPut m r =
          .taskResp m { stamp := r.stamp, status := .StatusTenantDoesNotExist } := by
        simp [masterPut, PutResponse.new, hlen, hten]
      rw [applyPut, hmp, if_neg]
      rintro ⟨-, -, -, hst⟩
      simp [putRespStatus] at hst
    · rcases htab : ten.get_table r.table_id with _ | table
      · have hmp : masterPut m r =
            .taskResp m { stamp := r.stamp, status := .StatusTableDoesNotExist } := by
          simp [masterPut, PutResponse.new, hlen, hten, htab]
        rw [applyPut, hmp, if_neg]
        rintro ⟨-, -, -, hst⟩
        simp [putRespStatus] at hst
      · have hten2 : alookup m.tenants r.tenant = some ten := hten
        have htab2 : alookup ten.tables r.table_id = some table := htab
        by_cases hval : (r.payload.drop r.key_length).length > 0
        · -- the successful put: the table entry for the key is overwritten
          have hlt : r.key_length < r.payload.length := by
            simp only [List.length_drop, gt_iff_lt] at hval
            omega
          have hmp : masterPut m r =
              .taskResp (putUpdatedMaster m r ten table)
                        { stamp := r.stamp, status := .StatusOk } := by
            simp [masterPut, PutResponse.new, hlen, hten, htab, hlt]
          have hst : putRespStatus (masterPut m r) = .StatusOk := by
            rw [hmp]
            rfl
          have hap : applyPut m r = putUpdatedMaster m r ten table := by
            rw [applyPut, hmp]
          rw [hap]
          simp only [hst, and_true]
          by_cases hmatch : r.tenant = t ∧ r.table_id = tb
                              ∧ r.payload.take r.key_length = key
          · obtain ⟨h1, h2, h3⟩ := hmatch
            subst h1; subst h2; subst h3
            simp [putUpdatedMaster, lookupVal, Master.get_tenant,
                  Tenant.get_table, alookup_aupdate]
          · rw [if_neg hmatch]
            by_cases h1 : t = r.tenant
            · subst h1
              by_cases h2 : tb = r.table_id
              · subst h2
                have h3 : ¬ key = r.payload.take r.key_length := by
                  intro hc
                  exact hmatch ⟨rfl, rfl, hc.symm⟩
                simp [putUpdatedMaster, lookupVal, Master.get_tenant,
                      Tenant.get_table, alookup_aupdate, hten2, htab2, h3]
              · simp [putUpdatedMaster, lookupVal, Master.get_tenant,
                      Tenant.get_table, alookup_aupdate, hten2, h2]
            · have h1s : ¬ t = r.tenant := h1
              simp [putUpdatedMaster, lookupVal, Master.get_tenant,
                    alookup_aupdate, h1s]
        · have hle : r.payload.length ≤ r.key_length := by
            simp only [List.length_drop, gt_iff_lt, Nat.pos_iff_ne_zero] at hval
            omega
          have hmp : masterPut m r =
              .taskResp m { stamp := r.stamp, status := .StatusMalformedRequest } := by
            simp [masterPut, PutResponse.new, hlen, hten, htab, hle]
          rw [applyPut, hmp, if_neg]
          rintro ⟨-, -, -, hst⟩
          simp [putRespStatus] at hst

theorem lookupVal_applyPuts (t tb : Nat) (key : List Nat) :
    ∀ (ops : List ReqPacket) (m : Master),
      lookupVal (applyPuts m ops) t tb key =
        match lastOkPutValue m t tb key ops with
        | some v => some v
        | none => lookupVal m t tb key
  | [], m => by simp [applyPuts, lastOkPutValue]
  | r :: rest, m => by
    have ih := lookupVal_applyPuts t tb key rest (applyPut m r)
    simp only [applyPuts, lastOkPutValue]
    rw [ih]
    rcases lastOkPutValue (applyPut m r) t tb key rest with _ | v
    · simp only [lookupVal_applyPut]
      by_cases hc : r.tenant = t ∧ r.table_id = tb
          ∧ r.payload.take r.key_length = key
          ∧ putRespStatus (masterPut m r) = .StatusOk
      · simp [hc]
      · simp [hc]
    · simp

theorem masterGet_of_lookupVal (m : Master) (req : ReqPacket) (v : List Nat)
    (hlen : ¬ req.payload.length < req.key_length)
    (hv : lookupVal m req.tenant req.table_id
            (req.payload.take req.key_length) = some v) :
    masterGet m req =
      .taskResp { stamp := req.stamp, status := .StatusOk,
                  value_length := v.length, payload := v } := by
  unfold lookupVal at hv
  rcases hten : m.get_tenant req.tenant with _ | ten
  · simp [hten] at hv
  · simp only [hten, Option.some_bind'] at hv
    rcases htab : ten.get_table req.table_id with _ | table
    · simp [htab] at hv
    · simp only [htab, Option.some_bind'] at hv
      rcases hobj : alookup table.entries (req.payload.take req.key_length)
          with _ | obj
      · simp [hobj] at hv
      · simp only [hobj, Option.map_some', Option.some_inj] at hv
        simp [masterGet, hlen, hten, htab, hobj, GetResponse.new, hv]

theorem masterGet_stamp (m : Master) (req : ReqPacket) :
    getResultStamp (masterGet m req) = req.stamp := by
  by_cases hlen : req.payload.length < req.key_length
  · simp [masterGet, hlen, GetResponse.new, getResultStamp]
  · rcases hten : m.get_tenant req.tenant with _ | ten
    · simp [masterGet, hlen, hten, GetResponse.new, getResultStamp]
    · rcases htab : ten.get_table req.table_id with _ | table
      · simp [masterGet, hlen, hten, htab, GetResponse.new, getResultStamp]
      · rcases hobj : alookup table.entries (req.payload.take req.key_length)
            with _ | obj
        · simp [masterGet, hlen, hten, htab, hobj, GetResponse.new,
                getResultStamp]
        · simp [masterGet, hlen, hten, htab, hobj, GetResponse.new,
                getResultStamp]

theorem masterPut_stamp (m : Master) (req : ReqPacket) :
    putResultStamp (masterPut m req) = req.stamp := by
  by_cases hlen : req.payload.length < req.key_length
  · simp [masterPut, hlen, PutResponse.new, putResultStamp]
  · rcases hten : m.get_tenant req.tenant with _ | ten
    · simp [masterPut, hlen, hten, PutResponse.new, putResultStamp]
    · rcases htab : ten.get_table req.table_id with _ | table
      · simp [masterPut, hlen, hten, htab, PutResponse.new, putResultStamp]
      · by_cases hval : req.key_length < req.payload.length
        · simp [masterPut, hlen, hten, htab, hval, PutResponse.new,
                putResultStamp]
        · simp [masterPut, hlen, hten, htab, hval, PutResponse.new,
                putResultStamp]

theorem masterInvoke_stamp (m : Master) (req : ReqPacket) :
    masterInvoke m req = .panicked ∨
      invokeResultStamp (masterInvoke m req) = some req.stamp := by
  by_cases hlen : req.payload.length < req.name_length + req.args_length
  · right
    simp [masterInvoke, hlen, InvokeResponse.new, invokeResultStamp]
  · by_cases hu : utf8Valid (req.payload.take req.name_length) = true
    · rcases hten : m.get_tenant req.tenant with _ | ten
      · right
        simp [masterInvoke, hlen, hu, hten, InvokeResponse.new,
              invokeResultStamp]
      · by_cases hext : extensionsGet m req.tenant
            (req.payload.take req.name_length) = true
        · right
          simp [masterInvoke, hlen, hu, hten, hext, InvokeResponse.new,
                invokeResultStamp]
        · right
          simp [masterInvoke, hlen, hu, hten, hext, InvokeResponse.new,
                invokeResultStamp]
    · left
      simp [masterInvoke, hlen, hu, InvokeResponse.new]

/-- C1: for every tenant and table that exist, and every key, a native
get RPC dispatched after a native put RPC for that key has returned with
status Ok returns status Ok and a response payload equal to the value
bytes of the most recent such put; the response's value_length field
equals the length of that payload.  Formally: after applying any sequence
of put RPCs, if the most recent put addressing `(t, tb, key)` whose
response status was Ok wrote value `v`, a get for that key returns a
task whose response has status Ok, payload `v`, and value_length
`v.length`. -/
theorem C1_native_get_returns_latest_ok_put (m0 : Master)
    (ops : List ReqPacket) (t tb stamp : Nat) (key v : List Nat)
    (hv : lastOkPutValue m0 t tb key ops = some v) :
    masterGet (applyPuts m0 ops)
        { tenant := t, stamp := stamp, table_id := tb,
          key_length := key.length, name_length := 0, args_length := 0,
          payload := key } =
      .taskResp { stamp := stamp, status := .StatusOk,
                  value_length := v.length, payload := v } := by
  apply masterGet_of_lookupVal
  · simp
  · have h := lookupVal_applyPuts t tb key ops m0
    rw [hv] at h
    simpa using h

theorem C1_witness :
    lastOkPutValue sampleMaster 1 1 [5] [samplePutReq] = some [9] ∧
    masterGet (applyPuts sampleMaster [samplePutReq])
        { tenant := 1, stamp := 99, table_id := 1,
          key_length := 1, name_length := 0, args_length := 0,
          payload := [5] } =
      .taskResp { stamp := 99, status := .StatusOk,
                  value_length := 1, payload := [9] } :=
  ⟨by decide,
   C1_native_get_returns_latest_ok_put sampleMaster [samplePutReq] 1 1 99
     [5] [9] (by decide)⟩

/-- C2: for every native get request whose tenant and table exist but
whose key is absent from the table, the response has status
ObjectDoesNotExist and an empty payload; status Ok with an empty value is
never returned for a missing key. -/
theorem C2_get_missing_key_object_does_not_exist (m : Master)
    (req : ReqPacket) (ten : Tenant) (table : Table)
    (hlen : ¬ req.payload.length < req.key_length)
    (hten : m.get_tenant req.tenant = some ten)
    (htab : ten.get_table req.table_id = some table)
    (hkey : alookup table.entries (req.payload.take req.key_length) = none) :
    masterGet m req =
      .taskResp { stamp := req.stamp, status := .StatusObjectDoesNotExist,
                  value_length := 0, payload := [] } ∧
    ¬ ∃ r2 : GetResponse, r2.status = .StatusOk ∧
        (masterGet m req = .taskResp r2 ∨ masterGet m req = .errResp r2) := by
  have h : masterGet m req =
      .taskResp { stamp := req.stamp, status := .StatusObjectDoesNotExist,
                  value_length := 0, payload := [] } := by
    simp [masterGet, hlen, hten, htab, hkey, GetResponse.new]
  refine ⟨h, ?_⟩
  rintro ⟨r2, hok, hcase | hcase⟩ <;> rw [h] at hcase
  · injection hcase with h2
    rw [← h2] at hok
    simp at hok
  · exact GetResult.noConfusion hcase

theorem C2_witness :
    masterGet sampleMaster
        { tenant := 1, stamp := 99, table_id := 1, key_length := 1,
          name_length := 0, args_length := 0, payload := [2] } =
      .taskResp { stamp := 99, status := .StatusObjectDoesNotExist,
                  value_length := 0, payload := [] } :=
  (C2_get_missing_key_object_does_not_exist sampleMaster
      { tenant := 1, stamp := 99, table_id := 1, key_length := 1,
        name_length := 0, args_length := 0, payload := [2] }
      sampleTenant sampleTable (by decide) (by decide) (by decide)
      (by decide)).1

/-- C3: for every get or put request whose payload is shorter than the
declared key_length, and every invoke request whose payload is shorter
than name_length + args_length, dispatch sets the response status to
MalformedRequest and returns the request/response packets without
creating any task. -/
theorem C3_short_payload_malformed_no_task (m : Master) (req : ReqPacket) :
    (req.payload.length < req.key_length →
      Master.dispatch m .SandstormGetRpc req =
        .errGet { stamp := req.stamp, status := .StatusMalformedRequest,
                  value_length := 0, payload := [] } ∧
      Master.dispatch m .SandstormPutRpc req =
        .errPut { stamp := req.stamp, status := .StatusMalformedRequest } ∧
      taskCreated (Master.dispatch m .SandstormGetRpc req) = false ∧
      taskCreated (Master.dispatch m .SandstormPutRpc req) = false) ∧
    (req.payload.length < req.name_length + req.args_length →
      Master.dispatch m .SandstormInvokeRpc req =
        .errInvoke { stamp := req.stamp, status := .StatusMalformedRequest,
                     payload := [] } ∧
      taskCreated (Master.dispatch m .SandstormInvokeRpc req) = false) := by
  constructor
  · intro hlen
    have hg : Master.dispatch m .SandstormGetRpc req =
        .errGet { stamp := req.stamp, status := .StatusMalformedRequest,
                  value_length := 0, payload := [] } := by
      simp [Master.dispatch, masterGet, hlen, GetResponse.new]
    have hp : Master.dispatch m .SandstormPutRpc req =
        .errPut { stamp := req.stamp, status := .StatusMalformedRequest } := by
      simp [Master.dispatch, masterPut, hlen, PutResponse.new]
    exact ⟨hg, hp, by rw [hg]; rfl, by rw [hp]; rfl⟩
  · intro hlen
    have hi : Master.dispatch m .SandstormInvokeRpc req =
        .errInvoke { stamp := req.stamp, status := .StatusMalformedRequest,
                     payload := [] } := by
      simp [Master.dispatch, masterInvoke, hlen, InvokeResponse.new]
    exact ⟨hi, by rw [hi]; rfl⟩

theorem C3_witness :
    Master.dispatch sampleMaster .SandstormGetRpc sampleShortReq =
      .errGet { stamp := 11, status := .StatusMalformedRequest,
                value_length := 0, payload := [] } ∧
    Master.dispatch sampleMaster .SandstormInvokeRpc sampleShortReq =
      .errInvoke { stamp := 11, status := .StatusMalformedRequest,
                   payload := [] } :=
  ⟨((C3_short_payload_malformed_no_task sampleMaster sampleShortReq).1
      (by decide)).1,
   ((C3_short_payload_malformed_no_task sampleMaster sampleShortReq).2
      (by decide)).1⟩

/-- C4, counterexample: the claim says dispatch of an unknown opcode
returns a response whose status is MalformedRequest. It does not: the
wildcard arm of `Service::dispatch` (master.rs line 600) returns
`Err((req, res))` with the packets untouched — no response header is
pushed and no status is written, so the response carries no
MalformedRequest status. -/
theorem C4_counterexample :
    Master.dispatch sampleMaster (.unknownOp 4) sampleGetReq = .errRaw ∧
    dispatchRespStatus (Master.dispatch sampleMaster (.unknownOp 4)
        sampleGetReq) ≠ some .StatusMalformedRequest ∧
    taskCreated (Master.dispatch sampleMaster (.unknownOp 4) sampleGetReq)
      = false := by
  refine ⟨rfl, ?_, rfl⟩
  intro h
  simp [Master.dispatch, dispatchRespStatus] at h

/-- C4, amended: for every request whose opcode is not SandstormGetRpc,
SandstormPutRpc, or SandstormInvokeRpc, dispatch creates no task and
returns the request and response packets unchanged; no response header is
pushed, so no status (MalformedRequest or otherwise) is set on the
response. -/
theorem C4_unknown_opcode_returns_packets_unchanged (m : Master)
    (code : Nat) (req : ReqPacket) :
    Master.dispatch m (.unknownOp code) req = .errRaw ∧
    dispatchRespStatus (Master.dispatch m (.unknownOp code) req) = none ∧
    taskCreated (Master.dispatch m (.unknownOp code) req) = false :=
  ⟨rfl, rfl, rfl⟩

/-- C5: for every RPC (get, put, or invoke), on every path including
every error path, the stamp field of the response's common header equals
the stamp field of the request's common header. (The invoke handler's
panic on a non-UTF-8 name produces no response at all; every response
that exists echoes the stamp.) -/
theorem C5_response_stamp_echoes_request (m : Master) (req : ReqPacket) :
    dispatchStamp (Master.dispatch m .SandstormGetRpc req) = some req.stamp ∧
    dispatchStamp (Master.dispatch m .SandstormPutRpc req) = some req.stamp ∧
    (Master.dispatch m .SandstormInvokeRpc req = .panicked ∨
      dispatchStamp (Master.dispatch m .SandstormInvokeRpc req)
        = some req.stamp) := by
  refine ⟨?_, ?_, ?_⟩
  · have h := masterGet_stamp m req
    unfold Master.dispatch
    rcases hg : masterGet m req with r | r <;>
      rw [hg] at h <;>
      simpa [dispatchStamp, getResultStamp] using h
  · have h := masterPut_stamp m req
    unfold Master.dispatch
    rcases hp : masterPut m req with r | ⟨m2, r⟩ <;>
      rw [hp] at h <;>
      simpa [dispatchStamp, putResultStamp] using h
  · have h := masterInvoke_stamp m req
    rcases hi : masterInvoke m req with _ | r | c
    · left
      unfold Master.dispatch
      rw [hi]
    · right
      rw [hi] at h
      rcases h with h | h
      · exact absurd h (by simp)
      · unfold Master.dispatch
        rw [hi]
        simpa [dispatchStamp, invokeResultStamp] using h
    · right
      rw [hi] at h
      rcases h with h | h
      · exact absurd h (by simp)
      · unfold Master.dispatch
        rw [hi]
        simpa [dispatchStamp, invokeResultStamp] using h

/-- C6: for every well-formed invoke request (payload at least
name_length + args_length bytes, name valid UTF-8): if the tenant does
not exist the response status is TenantDoesNotExist; if the tenant exists
but the named extension is not loaded/authorized for it the response
status is InvalidExtension; otherwise a container task is created and
dispatch returns Ok with the response status left at Ok (no error status
set). -/
theorem C6_invoke_validation_cascade (m : Master) (req : ReqPacket)
    (hlen : ¬ req.payload.length < req.name_length + req.args_length)
    (hu : utf8Valid (req.payload.take req.name_length) = true) :
    (m.get_tenant req.tenant = none →
      masterInvoke m req =
        .errResp { stamp := req.stamp, status := .StatusTenantDoesNotExist,
                   payload := [] }) ∧
    (∀ ten, m.get_tenant req.tenant = some ten →
      extensionsGet m req.tenant (req.payload.take req.name_length) = false →
      masterInvoke m req =
        .errResp { stamp := req.stamp, status := .StatusInvalidExtension,
                   payload := [] }) ∧
    (∀ ten, m.get_tenant req.tenant = some ten →
      extensionsGet m req.tenant (req.payload.take req.name_length) = true →
      masterInvoke m req =
        .task { reqPayload := req.payload, args_offset := req.name_length,
                args_length := req.args_length,
                resp := { stamp := req.stamp, status := .StatusOk,
                          payload := [] },
                tenantId := req.tenant,
                extName := req.payload.take req.name_length } ∧
      taskCreated (Master.dispatch m .SandstormInvokeRpc req) = true) := by
  refine ⟨?_, ?_, ?_⟩
  · intro hten
    simp [masterInvoke, hlen, hu, hten, InvokeResponse.new]
  · intro ten hten hext
    simp [masterInvoke, hlen, hu, hten, hext, InvokeResponse.new]
  · intro ten hten hext
    have hi : masterInvoke m req =
        .task { reqPayload := req.payload, args_offset := req.name_length,
                args_length := req.args_length,
                resp := { stamp := req.stamp, status := .StatusOk,
                          payload := [] },
                tenantId := req.tenant,
                extName := req.payload.take req.name_length } := by
      simp [masterInvoke, hlen, hu, hten, hext, InvokeResponse.new]
    refine ⟨hi, ?_⟩
    unfold Master.dispatch
    rw [hi]
    rfl

theorem C6_witness :
    masterInvoke sampleMaster sampleInvokeReq =
      .task { reqPayload := [97, 98], args_offset := 2, args_length := 0,
              resp := { stamp := 5, status := .StatusOk, payload := [] },
              tenantId := 1, extName := [97, 98] } :=
  ((C6_invoke_validation_cascade sampleMaster sampleInvokeReq (by decide)
      (by decide)).2.2 sampleTenant (by decide) (by decide)).1

/-- C7, counterexample: the claim says a `Context.resp` call whose data
does not fit the remaining response-payload capacity surfaces the failure
as an error to the extension. It does not: `Context::resp`
(context.rs line 188) calls `add_to_payload_tail(..).unwrap()`, so the
failure is a panic unwinding out of the extension; no error value is ever
returned to it. Concretely, with remaining capacity 0, appending one byte
panics. -/
theorem C7_counterexample :
    contextResp { cap := 0, payload := [] } [0] = .panicked ∧
    ¬ ∃ r2 : CtxResponse,
        contextResp { cap := 0, payload := [] } [0] = .ok r2 := by
  refine ⟨by decide, ?_⟩
  rintro ⟨r2, h⟩
  rw [show contextResp { cap := 0, payload := [] } [0] = .panicked
        from by decide] at h
  exact PanicOr.noConfusion h

/-- C7, amended: for every call to `Context.resp` whose data does not fit
in the remaining response-payload capacity, the call panics (the `unwrap`
in context.rs) instead of returning an error value to the extension; the
panic is caught at the slice boundary, where the containing task
completes with status InternalError and the worker is not aborted (spec
section 7, modelled by `containerSliceBoundary` since `container.rs` is
not under the provided sources). -/
theorem C7_resp_overflow_caught_as_internal_error (r : CtxResponse)
    (data : List Nat) (h : r.cap < r.payload.length + data.length) :
    contextResp r data = .panicked ∧
    containerSliceBoundary (contextResp r data) =
      (.COMPLETED, .StatusInternalError, false) := by
  have hadd : addToPayloadTail r data = none := by
    unfold addToPayloadTail
    rw [if_neg]
    omega
  constructor
  · unfold contextResp
    rw [hadd]
  · unfold containerSliceBoundary contextResp
    rw [hadd]

theorem C7_witness :
    contextResp { cap := 1, payload := [5] } [7, 8] = .panicked ∧
    containerSliceBoundary (contextResp { cap := 1, payload := [5] } [7, 8]) =
      (.COMPLETED, .StatusInternalError, false) :=
  C7_resp_overflow_caught_as_internal_error { cap := 1, payload := [5] }
    [7, 8] (by decide)

/-- C9 (implicit): for every native put request on an existing tenant and
table whose payload length exactly equals the declared key_length (zero
value bytes after the key), the response status is MalformedRequest and
no object is inserted into the table (the Master state is unchanged). -/
theorem C9_put_empty_value_malformed_no_insert (m : Master)
    (req : ReqPacket) (ten : Tenant) (table : Table)
    (hlen : req.payload.length = req.key_length)
    (hten : m.get_tenant req.tenant = some ten)
    (htab : ten.get_table req.table_id = some table) :
    masterPut m req =
      .taskResp m { stamp := req.stamp, status := .StatusMalformedRequest } ∧
    applyPut m req = m := by
  have h1 : ¬ req.payload.length < req.key_length := by omega
  have h2 : ¬ req.key_length < req.payload.length := by omega
  have h : masterPut m req =
      .taskResp m { stamp := req.stamp, status := .StatusMalformedRequest } := by
    simp [masterPut, h1, h2, hten, htab, PutResponse.new]
  exact ⟨h, by rw [applyPut, h]⟩

theorem C9_witness :
    masterPut sampleMaster
        { tenant := 1, stamp := 13, table_id := 1, key_length := 2,
          name_length := 0, args_length := 0, payload := [4, 4] } =
      .taskResp sampleMaster
        { stamp := 13, status := .StatusMalformedRequest } :=
  (C9_put_empty_value_malformed_no_insert sampleMaster
      { tenant := 1, stamp := 13, table_id := 1, key_length := 2,
        name_length := 0, args_length := 0, payload := [4, 4] }
      sampleTenant sampleTable (by decide) (by decide) (by decide)).1

/-- C10 (implicit): dispatch of an invoke request is total only under the
precondition that the first name_length bytes of the payload are valid
UTF-8: whenever they are valid the handler never panics, and for the
concrete invoke request `sampleBadNameReq`, whose name byte `0xFF` is not
valid UTF-8, the handler panics (the `String::from_utf8(..).expect(..)`
of master.rs line 538) instead of returning a MalformedRequest
response. -/
theorem C10_invoke_panics_on_invalid_utf8_name (m : Master)
    (req : ReqPacket)
    (hu : utf8Valid (req.payload.take req.name_length) = true) :
    masterInvoke m req ≠ .panicked ∧
    masterInvoke sampleMaster sampleBadNameReq = .panicked ∧
    utf8Valid (sampleBadNameReq.payload.take sampleBadNameReq.name_length)
      = false := by
  refine ⟨?_, by decide, by decide⟩
  by_cases hlen : req.payload.length < req.name_length + req.args_length
  · simp [masterInvoke, hlen, InvokeResponse.new]
  · rcases hten : m.get_tenant req.tenant with _ | ten
    · simp [masterInvoke, hlen, hu, hten, InvokeResponse.new]
    · by_cases hext : extensionsGet m req.tenant
          (req.payload.take req.name_length) = true
      · simp [masterInvoke, hlen, hu, hten, hext, InvokeResponse.new]
      · simp [masterInvoke, hlen, hu, hten, hext, InvokeResponse.new]

theorem C10_witness :
    masterInvoke sampleMaster sampleInvokeReq ≠ .panicked ∧
    masterInvoke sampleMaster sampleBadNameReq = .panicked :=
  ⟨(C10_invoke_panics_on_invalid_utf8_name sampleMaster sampleInvokeReq
      (by decide)).1,
   (C10_invoke_panics_on_invalid_utf8_name sampleMaster sampleInvokeReq
      (by decide)).2.1⟩

theorem serializeRecord_length (tag : Nat) (rec : RWRecord)
    (hk : rec.key.length = PUSHBACK_KEY_LEN)
    (hv : rec.value.length = PUSHBACK_VAL_LEN) :
    (serializeRecord tag rec).length = RECORD_SIZE := by
  simp [serializeRecord, hk, hv, RECORD_SIZE, PUSHBACK_KEY_LEN,
        PUSHBACK_VAL_LEN]

theorem parseRecords_nil (recSize keyLen : Nat) :
    parseRecords recSize keyLen [] = [] := by
  unfold parseRecords
  simp

theorem parseRecords_record_cons (tag : Nat) (rec : RWRecord)
    (rest : List Nat) (hk : rec.key.length = PUSHBACK_KEY_LEN)
    (hv : rec.value.length = PUSHBACK_VAL_LEN) :
    parseRecords RECORD_SIZE PUSHBACK_KEY_LEN (serializeRecord tag rec ++ rest)
      = (tag, rec) :: parseRecords RECORD_SIZE PUSHBACK_KEY_LEN rest := by
  have hlen : (serializeRecord tag rec).length = RECORD_SIZE :=
    serializeRecord_length tag rec hk hv
  have htake : (serializeRecord tag rec ++ rest).take RECORD_SIZE
      = serializeRecord tag rec := List.take_left' hlen
  have hdrop : (serializeRecord tag rec ++ rest).drop RECORD_SIZE = rest :=
    List.drop_left' hlen
  have hcons : serializeRecord tag rec ++ rest
      = tag :: ((rec.key ++ rec.value) ++ rest) := by
    simp [serializeRecord]
  rw [parseRecords]
  rw [if_neg]
  · rw [htake, hdrop]
    have hhead : (serializeRecord tag rec).headD 0 = tag := by
      simp [serializeRecord]
    have hdrop1 : (serializeRecord tag rec).drop 1 = rec.key ++ rec.value := by
      simp [serializeRecord]
    have hkey : ((serializeRecord tag rec).drop 1).take PUSHBACK_KEY_LEN
        = rec.key := by
      rw [hdrop1]
      exact List.take_left' hk
    have hval : ((serializeRecord tag rec).drop 1).drop PUSHBACK_KEY_LEN
        = rec.value := by
      rw [hdrop1]
      exact List.drop_left' hk
    simp only [hhead, hkey, hval]
  · rintro (habs | habs)
    · rw [hcons] at habs
      exact List.noConfusion habs
    · exact absurd habs (by decide)

theorem parseRecords_flatten (tag : Nat) :
    ∀ (l : List RWRecord) (rest : List Nat),
      (∀ rec ∈ l, rec.key.length = PUSHBACK_KEY_LEN
        ∧ rec.value.length = PUSHBACK_VAL_LEN) →
      parseRecords RECORD_SIZE PUSHBACK_KEY_LEN
          ((l.map (serializeRecord tag)).flatten ++ rest)
        = l.map (fun rec => (tag, rec))
            ++ parseRecords RECORD_SIZE PUSHBACK_KEY_LEN rest
  | [], rest, _ => by simp
  | rec :: l, rest, h => by
    have hrec := h rec (by simp)
    have ih := parseRecords_flatten tag l rest
      (fun r hr => h r (by simp [hr]))
    simp only [List.map_cons, List.flatten_cons, List.append_assoc]
    rw [parseRecords_record_cons tag rec _ hrec.1 hrec.2, ih]
    simp

theorem flatten_serialize_length (tag : Nat) :
    ∀ (l : List RWRecord),
      (∀ rec ∈ l, rec.key.length = PUSHBACK_KEY_LEN
        ∧ rec.value.length = PUSHBACK_VAL_LEN) →
      ((l.map (serializeRecord tag)).flatten).length = RECORD_SIZE * l.length
  | [], _ => by simp
  | rec :: l, h => by
    have hrec := h rec (by simp)
    have ih := flatten_serialize_length tag l (fun r hr => h r (by simp [hr]))
    simp only [List.map_cons, List.flatten_cons, List.length_append, ih,
               serializeRecord_length tag rec hrec.1 hrec.2, List.length_cons]
    ring

/-- C8: for every pushback response, the payload is a concatenation of
fixed-width records of exactly 1 + KEY_LEN + VAL_LEN bytes each (71 in
the default deployment, with KEY_LEN = 30), read-set records preceding
write-set records, and the client restores the task's read/write-set by
parsing the payload at exactly that record width and key length: parsing
the serialized payload with `RECORD_SIZE` and key length 30 (the
constants the auth client passes to `update_rwset`) recovers the read-set
records (tag 1) followed by the write-set records (tag 2). -/
theorem C8_pushback_records_roundtrip (rset wset : List RWRecord)
    (hr : ∀ rec ∈ rset, rec.key.length = PUSHBACK_KEY_LEN
      ∧ rec.value.length = PUSHBACK_VAL_LEN)
    (hw : ∀ rec ∈ wset, rec.key.length = PUSHBACK_KEY_LEN
      ∧ rec.value.length = PUSHBACK_VAL_LEN) :
    RECORD_SIZE = 1 + PUSHBACK_KEY_LEN + PUSHBACK_VAL_LEN ∧
    (serializePushback rset wset).length
      = RECORD_SIZE * (rset.length + wset.length) ∧
    parseRecords RECORD_SIZE PUSHBACK_KEY_LEN (serializePushback rset wset)
      = rset.map (fun rec => (1, rec)) ++ wset.map (fun rec => (2, rec)) := by
  refine ⟨by decide, ?_, ?_⟩
  · rw [serializePushback, List.length_append,
        flatten_serialize_length 1 rset hr,
        flatten_serialize_length 2 wset hw]
    ring
  · have hwpart := parseRecords_flatten 2 wset [] hw
    rw [List.append_nil, parseRecords_nil, List.append_nil] at hwpart
    rw [serializePushback, parseRecords_flatten 1 rset _ hr, hwpart]

theorem C8_witness :
    parseRecords RECORD_SIZE PUSHBACK_KEY_LEN
        (serializePushback
          [{ key := List.replicate 30 1, value := List.replicate 40 2 }]
          [{ key := List.replicate 30 3, value := List.replicate 40 4 }])
      = [(1, { key := List.replicate 30 1, value := List.replicate 40 2 }),
         (2, { key := List.replicate 30 3, value := List.replicate 40 4 })] ∧
    (serializePushback
        [{ key := List.replicate 30 1, value := List.replicate 40 2 }]
        [{ key := List.replicate 30 3, value := List.replicate 40 4 }]).length
      = RECORD_SIZE * 2 :=
  ⟨(C8_pushback_records_roundtrip
      [{ key := List.replicate 30 1, value := List.replicate 40 2 }]
      [{ key := List.replicate 30 3, value := List.replicate 40 4 }]
      (by decide) (by decide)).2.2,
   (C8_pushback_records_roundtrip
      [{ key := List.replicate 30 1, value := List.replicate 40 2 }]
      [{ key := List.replicate 30 3, value := List.replicate 40 4 }]
      (by decide) (by decide)).2.1⟩

end Splinter
